import Mathlib

/-!
Verification development for the collaborative sequence interval subsystem
(sequenceInterval.ts of the FluidFramework sequence package).

The definitions below are a shallow embedding of the TypeScript source.
Pure functions become Lean functions; JS exceptions (`UsageError`, `assert`)
become `Except`; optional parameters become `Option`; JS bitwise operations
on the `ReferenceType` bitset become `Nat` bit operations with an explicit
32-bit mask where complement is involved.  JS object identity of local
reference positions is modelled by an `oid` field carried in the structure:
two positions are the same JS object exactly when they are equal as Lean
values.  Property bags are modelled with JS lookup semantics: a key whose
value is `undefined` is indistinguishable from an absent key by every
operation the source performs (lookups, destructuring, spreads), so such
keys are represented as absent.

Collaborator functions from the merge tree (`compareReferencePositions`,
`minReferencePosition`, `maxReferencePosition`, `endpointPosAndSide`,
`getSlideToSegoff`, `createLocalReferencePosition`,
`createDetachedLocalReferencePosition`, `addProperties`) and from the
interval utilities (`computeStickinessFromSide`,
`startReferenceSlidingPreference`, `endReferenceSlidingPreference`) are not
part of the given source files; they are modelled from the spec, either as
concrete definitions (when the spec fixes their behavior) or as fields of
the `Client` record (when the spec says the table/behavior is supplied by
the collaborator).  Each such definition carries a doc comment saying so.
-/

namespace SeqInterval

/-- Side of a position: `Side.Before`/`Side.After` from the merge-tree
sequence-place module. -/
inductive Side
  | Before
  | After
deriving DecidableEq

/-- Direction a reference slides when its anchoring segment is removed. -/
inductive SlidingPreference
  | FORWARD
  | BACKWARD
deriving DecidableEq

/-- A resolved sequence position: a numeric index or one of the sentinels
`"start"` / `"end"`. -/
inductive SeqPos
  | num (n : Int)
  | seqStart
  | seqEnd
deriving DecidableEq

/-- `SequencePlace`: `number | "start" | "end" | InteriorSequencePlace`.
A plain place is a number or sentinel; an interior place carries a side. -/
inductive SequencePlace
  | plain (p : SeqPos)
  | interior (pos : Int) (side : Side)
deriving DecidableEq

/-- `IntervalType` from intervalUtils. -/
inductive IntervalType
  | Simple
  | Nest
  | SlideOnRemove
  | Transient
deriving DecidableEq

/-- Errors the embedded code can raise: `UsageError(msg)` or a failed
`assert` with its numeric code. -/
inductive SIErr
  | usageError (msg : String)
  | assertionError (code : Nat)
deriving DecidableEq

deriving instance DecidableEq for Except

/-- Modelled from the spec: `ReferenceType` is a bitset over
`{RangeBegin, RangeEnd, SlideOnRemove, StayOnRemove, Transient}`; the
merge-tree enum assigns the distinct bits used here. -/
def ReferenceType.RangeBegin : Nat := 0x10

def ReferenceType.RangeEnd : Nat := 0x20

def ReferenceType.SlideOnRemove : Nat := 0x40

def ReferenceType.StayOnRemove : Nat := 0x80

def ReferenceType.Transient : Nat := 0x100

/-- JS `r & ~flag` on 32-bit integers: clear the bits of `flag`. -/
def maskOut32 (r flag : Nat) : Nat := r &&& (0xFFFFFFFF ^^^ flag)

/-- Modelled from the spec: merge-tree `refTypeIncludesFlag` — tests a bit
of the reference-type bitset (`(refType & flag) !== 0`). -/
def refTypeIncludesFlag (refType flag : Nat) : Bool := refType &&& flag != 0

/-- JS truthiness of an optional number: `undefined` and `0` are falsy. -/
def jsFalsyNum : Option Int → Bool
  | none => true
  | some v => v == 0

/-- JS truthiness of an optional boolean: only `true` is truthy. -/
def jsTruthy (b : Option Bool) : Bool := b == some true

/-- A property value as used by this code: a string, a number, or a list of
strings (range labels). -/
inductive PropValue
  | str (s : String)
  | num (n : Int)
  | strList (l : List String)
deriving DecidableEq

/-- A JS property bag, as an association list keyed by strings, kept in JS
object key order. -/
abbrev PropertySet := List (String × PropValue)

/-- JS `obj[k] = v`: overwrite in place when present, else append. -/
def setKey (ps : PropertySet) (k : String) (v : PropValue) : PropertySet :=
  if ps.any (fun kv => kv.1 == k) then
    ps.map (fun kv => if kv.1 == k then (k, v) else kv)
  else
    ps ++ [(k, v)]

/-- Remove a key; also models assigning `undefined` to a key, which every
operation of the source observes identically to absence. -/
def eraseKey (ps : PropertySet) (k : String) : PropertySet :=
  ps.filter (fun kv => kv.1 != k)

/-- JS property lookup `obj[k]` (absent and `undefined` both give `none`). -/
def lookupProp (ps : PropertySet) (k : String) : Option PropValue :=
  (ps.find? (fun kv => kv.1 == k)).map (fun kv => kv.2)

/-- Modelled from the spec: merge-tree `addProperties` adds every entry of
the new bag to the old one, later assignments overriding. -/
def addProperties (old new : PropertySet) : PropertySet :=
  new.foldl (fun acc kv => setKey acc kv.1 kv.2) old

/-- A merge-tree segment as far as this code observes it: its optional
sentinel endpoint type and an identity tag. -/
structure Segment where
  endpointType : Option SeqPos
  sid : Nat
deriving DecidableEq

/-- A local reference position.  `oid` models JS object identity; `segment =
none` is a detached reference. -/
structure LocalReferencePosition where
  oid : Nat
  refType : Nat
  slidingPreference : Option SlidingPreference
  canSlideToEndpoint : Option Bool
  segment : Option Segment
  offset : Option Nat
  properties : Option PropertySet
deriving DecidableEq

/-- `LocalReferencePosition.getSegment()`. -/
def LocalReferencePosition.getSegment (pr : LocalReferencePosition) : Option Segment :=
  pr.segment

/-- Modelled from the spec: `LocalReferencePosition.addProperties` merges the
given bag into the reference's own properties. -/
def LocalReferencePosition.addProps (pr : LocalReferencePosition) (p : PropertySet) :
    LocalReferencePosition :=
  { pr with properties := some (addProperties (pr.properties.getD []) p) }

/-- A comparator over reference positions, standing for the merge-tree
collaborator `compareReferencePositions`. -/
abbrev RefCmp := LocalReferencePosition → LocalReferencePosition → Int

/-- Modelled from the spec: merge-tree `minReferencePosition` returns the
lesser of two reference positions under `compareReferencePositions`
(`compare(a, b) < 0 ? a : b`). -/
def minReferencePosition (c : RefCmp) (a b : LocalReferencePosition) :
    LocalReferencePosition :=
  if c a b < 0 then a else b

/-- Modelled from the spec: merge-tree `maxReferencePosition` returns the
greater of two reference positions (`compare(a, b) > 0 ? a : b`). -/
def maxReferencePosition (c : RefCmp) (a b : LocalReferencePosition) :
    LocalReferencePosition :=
  if 0 < c a b then a else b

/-- The `(refSeq, clientId)` pair passed to `getContainingSegment` for
op-originated references. -/
structure RefSeqInfo where
  referenceSequenceNumber : Int
  clientId : String
deriving DecidableEq

/-- The fields of `ISequencedDocumentMessage` this code reads. -/
structure Op where
  sequenceNumber : Int
  minimumSequenceNumber : Int
  referenceSequenceNumber : Int
  clientId : String
deriving DecidableEq

/-- `{ segment, offset } | undefined | "start" | "end"`: the segment/offset
argument of `createPositionReferenceFromSegoff`. -/
inductive Segoff
  | seg (s : Segment) (offset : Nat)
  | atStart
  | atEnd
  | undef
deriving DecidableEq

/-- The merge-tree client collaborator, restricted to the capability surface
the spec lists (§6).  The stickiness table and the sliding-preference tables
are supplied by the collaborator, as the spec states. -/
structure Client where
  lrpToPos : LocalReferencePosition → Int
  currentSeq : Int
  getContainingSegment : Int → Option RefSeqInfo → Option Int → Option (Segment × Nat)
  slideToSegoff : Option (Segment × Nat) → Option SlidingPreference → Bool → Segoff
  computeStickinessFromSide : Option SeqPos → Side → Option SeqPos → Side → Nat
  startReferenceSlidingPreference : Nat → SlidingPreference
  endReferenceSlidingPreference : Nat → SlidingPreference

/-- Modelled from the spec: merge-tree `endpointPosAndSide` normalizes one
optional `SequencePlace` to `(pos, side)`; a plain number or sentinel gets
`Side.Before`, an interior place keeps its side, `undefined` stays
`undefined`. -/
def placePosAndSide : Option SequencePlace → Option SeqPos × Option Side
  | none => (none, none)
  | some (.plain p) => (some p, some Side.Before)
  | some (.interior pos side) => (some (.num pos), some side)

/-- Modelled from the spec: merge-tree `endpointPosAndSide(start, end)`,
returned as `(startPos, startSide, endPos, endSide)`. -/
def endpointPosAndSide (start e : Option SequencePlace) :
    Option SeqPos × Option Side × Option SeqPos × Option Side :=
  ((placePosAndSide start).1, (placePosAndSide start).2,
   (placePosAndSide e).1, (placePosAndSide e).2)

/-- `compareSides` from sequenceInterval.ts: equal sides give 0; a `Before`
first argument gives 1, otherwise -1. -/
def compareSides (sideA sideB : Side) : Int :=
  if sideA = sideB then 0
  else if sideA = Side.Before then 1
  else -1

/-- `minSide`: `After` only when both are `After`. -/
def minSide (sideA sideB : Side) : Side :=
  if sideA = Side.After ∧ sideB = Side.After then Side.After else Side.Before

/-- `maxSide`: `Before` only when both are `Before`. -/
def maxSide (sideA sideB : Side) : Side :=
  if sideA = Side.Before ∧ sideB = Side.Before then Side.Before else Side.After

def reservedIntervalIdKey : String := "intervalId"

def legacyIdPrefix : String := "legacy"

/-- The merge-tree constant `reservedRangeLabelsKey`. -/
def reservedRangeLabelsKey : String := "referenceRangeLabels"

/-- The wire form `SerializedIntervalDelta` (a full `ISerializedInterval` is
the same record with the endpoint fields populated). -/
structure SerializedIntervalDelta where
  start : Option SeqPos
  «end» : Option SeqPos
  startSide : Option Side
  endSide : Option Side
  intervalType : IntervalType
  stickiness : Option Nat
  sequenceNumber : Int
  properties : Option PropertySet
deriving DecidableEq

/-- JS template-literal rendering of `serializedInterval.start`/`.end`
(`number | "start" | "end" | undefined`). -/
def posToTemplateString : Option SeqPos → String
  | none => "undefined"
  | some (.num n) => toString n
  | some .seqStart => "start"
  | some .seqEnd => "end"

/-- The record `getSerializedProperties` returns.  The source annotates
`labels : string[]`, but the destructured value can be `undefined`, hence
`Option` here. -/
structure SerializedPropsResult where
  id : PropValue
  labels : Option PropValue
  properties : PropertySet
deriving DecidableEq

/-- `getSerializedProperties`: destructure the two reserved keys out of the
serialized record's properties, synthesizing a legacy id when absent. -/
def getSerializedProperties (serializedInterval : SerializedIntervalDelta) :
    SerializedPropsResult :=
  let props := serializedInterval.properties.getD []
  let maybeId := lookupProp props reservedIntervalIdKey
  let labels := lookupProp props reservedRangeLabelsKey
  let properties := eraseKey (eraseKey props reservedIntervalIdKey) reservedRangeLabelsKey
  let id := maybeId.getD (.str (legacyIdPrefix
    ++ posToTemplateString serializedInterval.start ++ "-"
    ++ posToTemplateString serializedInterval.«end»))
  { id := id, labels := labels, properties := properties }

/-- The `SequenceIntervalClass` state: private `id`/`label`, the two
endpoint references, the interval type, the internally owned property map,
and the two sides. -/
structure SequenceIntervalClass where
  id : String
  label : String
  start : LocalReferencePosition
  «end» : LocalReferencePosition
  intervalType : IntervalType
  properties : PropertySet
  startSide : Side
  endSide : Side
deriving DecidableEq

namespace SequenceIntervalClass

/-- The class constructor: starts from an empty owned map and, when `props`
is given, merges it in with `addProperties`. -/
def construct (id label : String) (start e : LocalReferencePosition)
    (intervalType : IntervalType) (props : Option PropertySet)
    (startSide : Side := Side.Before) (endSide : Side := Side.Before) :
    SequenceIntervalClass :=
  { id := id, label := label, start := start, «end» := e,
    intervalType := intervalType,
    properties := match props with
      | some p => addProperties [] p
      | none => [],
    startSide := startSide, endSide := endSide }

/-- `getIntervalId()`. -/
def getIntervalId (i : SequenceIntervalClass) : String := i.id

/-- `compareStart(b)`: the reference comparator on the start references,
ties broken by `compareSides(this.startSide, b.startSide)`. -/
def compareStart (c : RefCmp) (a b : SequenceIntervalClass) : Int :=
  let dist := c a.start b.start
  if dist = 0 then compareSides a.startSide b.startSide else dist

/-- `compareEnd(b)`: the reference comparator on the end references, ties
broken by `compareSides(b.endSide, this.endSide)`. -/
def compareEnd (c : RefCmp) (a b : SequenceIntervalClass) : Int :=
  let dist := c a.«end» b.«end»
  if dist = 0 then compareSides b.endSide a.endSide else dist

/-- `compare(b)`: starts, then ends, then interval ids (JS string order);
an empty id on either side ties to 0. -/
def compare (c : RefCmp) (a b : SequenceIntervalClass) : Int :=
  let startResult := compareStart c a b
  if startResult = 0 then
    let endResult := compareEnd c a b
    if endResult = 0 then
      let thisId := a.getIntervalId
      if thisId ≠ "" then
        let bId := b.getIntervalId
        if bId ≠ "" then
          if bId < thisId then 1 else if thisId < bId then -1 else 0
        else 0
      else 0
    else endResult
  else startResult

/-- `overlaps(b)`: non-strict comparison of the four endpoint references. -/
def overlaps (c : RefCmp) (a b : SequenceIntervalClass) : Bool :=
  decide (c a.start b.«end» ≤ 0) && decide (c a.«end» b.start ≥ 0)

/-- `overlapsPos(bstart, bend)`: resolve both endpoints to numeric positions
and compare strictly. -/
def overlapsPos (cl : Client) (a : SequenceIntervalClass) (bstart bend : Int) : Bool :=
  let startPos := cl.lrpToPos a.start
  let endPos := cl.lrpToPos a.«end»
  decide (endPos > bstart) && decide (startPos < bend)

/-- `union(b)`: convex hull of the two intervals.  `freshId` is the value
the `uuid()` call returned (uuid generation is modelled from the spec:
"Generate a fresh UUID id"). -/
def union (c : RefCmp) (a b : SequenceIntervalClass) (freshId : String) :
    SequenceIntervalClass :=
  let newStart := minReferencePosition c a.start b.start
  let newEnd := maxReferencePosition c a.«end» b.«end»
  let startSide :=
    if a.start = b.start then minSide a.startSide b.startSide
    else if a.start = newStart then a.startSide else b.startSide
  let endSide :=
    if a.«end» = b.«end» then maxSide a.endSide b.endSide
    else if a.«end» = newEnd then a.endSide else b.endSide
  construct freshId a.label newStart newEnd a.intervalType none startSide endSide

/-- The `stickiness` getter: the collaborator table applied to the endpoint
types of the current anchor segments and the two sides. -/
def stickiness (cl : Client) (i : SequenceIntervalClass) : Nat :=
  cl.computeStickinessFromSide
    (i.start.getSegment.bind (fun s => s.endpointType)) i.startSide
    (i.«end».getSegment.bind (fun s => s.endpointType)) i.endSide

/-- `serializeDelta({props, includeEndpoints})`. -/
def serializeDelta (cl : Client) (i : SequenceIntervalClass)
    (props : Option PropertySet) (includeEndpoints : Bool) :
    SerializedIntervalDelta :=
  let startSegment := i.start.getSegment
  let endSegment := i.«end».getSegment
  let startPosition :=
    if includeEndpoints then
      some ((startSegment.bind (fun s => s.endpointType)).getD
        (.num (cl.lrpToPos i.start)))
    else none
  let endPosition :=
    if includeEndpoints then
      some ((endSegment.bind (fun s => s.endpointType)).getD
        (.num (cl.lrpToPos i.«end»)))
    else none
  { «end» := endPosition,
    intervalType := i.intervalType,
    sequenceNumber := cl.currentSeq,
    start := startPosition,
    stickiness := some (i.stickiness cl),
    startSide := if includeEndpoints then some i.startSide else none,
    endSide := if includeEndpoints then some i.endSide else none,
    properties := some (setKey
      (setKey (props.getD []) reservedIntervalIdKey (.str i.id))
      reservedRangeLabelsKey (.strList [i.label])) }

/-- `serialize()`. -/
def serialize (cl : Client) (i : SequenceIntervalClass) : SerializedIntervalDelta :=
  i.serializeDelta cl (some i.properties) true

end SequenceIntervalClass

/-- The special merge-tree segment anchoring sentinel `"start"`. -/
def startOfTreeSegment : Segment := { endpointType := some SeqPos.seqStart, sid := 0 }

/-- The special merge-tree segment anchoring sentinel `"end"`. -/
def endOfTreeSegment : Segment := { endpointType := some SeqPos.seqEnd, sid := 1 }

/-- Modelled from the spec: merge-tree `Client.createLocalReferencePosition`
creates a reference anchored at the given segment (or sentinel segment) with
the given reference type, sliding preference and can-slide flag.  `oid` is
the identity of the freshly allocated JS object. -/
def createLocalReferencePosition (oid : Nat) (segment : Option Segment)
    (offset : Option Nat) (refType : Nat)
    (slidingPreference : Option SlidingPreference)
    (canSlideToEndpoint : Option Bool) : LocalReferencePosition :=
  { oid := oid, refType := refType, slidingPreference := slidingPreference,
    canSlideToEndpoint := canSlideToEndpoint, segment := segment,
    offset := offset, properties := none }

/-- Modelled from the spec: merge-tree
`createDetachedLocalReferencePosition(slidingPreference, refType)` — a
detached reference carrying only the sliding preference and the reference
type. -/
def createDetachedLocalReferencePosition (oid : Nat)
    (slidingPreference : Option SlidingPreference) (refType : Nat) :
    LocalReferencePosition :=
  { oid := oid, refType := refType, slidingPreference := slidingPreference,
    canSlideToEndpoint := none, segment := none, offset := none,
    properties := none }

/-- `createPositionReferenceFromSegoff`: create an attached reference when a
segment (or sentinel) is available; on a missing segment, throw
`UsageError("Non-transient references need segment")` unless the creation
comes from an op, carries a truthy `localSeq`, comes from a snapshot, is a
rollback, or is transient — in which cases return a detached reference. -/
def createPositionReferenceFromSegoff (cl : Client) (segoff : Segoff)
    (refType : Nat) (op : Option Op) (localSeq : Option Int)
    (fromSnapshot : Option Bool) (slidingPreference : Option SlidingPreference)
    (canSlideToEndpoint : Option Bool) (rollback : Option Bool) (oid : Nat) :
    Except SIErr LocalReferencePosition :=
  match segoff with
  | .atStart =>
      .ok (createLocalReferencePosition oid (some startOfTreeSegment) none
        refType slidingPreference canSlideToEndpoint)
  | .atEnd =>
      .ok (createLocalReferencePosition oid (some endOfTreeSegment) none
        refType slidingPreference canSlideToEndpoint)
  | .seg s offset =>
      .ok (createLocalReferencePosition oid (some s) (some offset)
        refType slidingPreference canSlideToEndpoint)
  | .undef =>
      if op = none ∧ jsFalsyNum localSeq = true ∧ jsTruthy fromSnapshot = false ∧
          refTypeIncludesFlag refType ReferenceType.Transient = false ∧
          jsTruthy rollback = false then
        .error (.usageError "Non-transient references need segment")
      else
        .ok (createDetachedLocalReferencePosition oid slidingPreference refType)

/-- `createPositionReference`: resolve the position to a segment/offset (by
the op's perspective and post-slid for op-created references, by `localSeq`
otherwise), checking the `SlideOnRemove` assertions, then defer to
`createPositionReferenceFromSegoff`. -/
def createPositionReference (cl : Client) (pos : SeqPos) (refType : Nat)
    (op : Option Op) (fromSnapshot : Option Bool) (localSeq : Option Int)
    (slidingPreference : Option SlidingPreference) (exclusive : Bool)
    (useNewSlidingBehavior : Bool) (rollback : Option Bool) (oid : Nat) :
    Except SIErr LocalReferencePosition :=
  match (match op with
    | some o =>
        if refType &&& ReferenceType.SlideOnRemove ≠ 0 then
          match pos with
          | .seqStart => .ok Segoff.atStart
          | .seqEnd => .ok Segoff.atEnd
          | .num n =>
              .ok (cl.slideToSegoff
                (cl.getContainingSegment n
                  (some { referenceSequenceNumber := o.referenceSequenceNumber,
                          clientId := o.clientId }) none)
                slidingPreference useNewSlidingBehavior)
        else
          .error (.assertionError 0x2f5)
    | none =>
        if refType &&& ReferenceType.SlideOnRemove = 0 ∨ jsTruthy fromSnapshot = true then
          match pos with
          | .seqStart => .ok Segoff.atStart
          | .seqEnd => .ok Segoff.atEnd
          | .num n =>
              .ok (match cl.getContainingSegment n none localSeq with
                | some (s, offset) => Segoff.seg s offset
                | none => Segoff.undef)
        else
          .error (.assertionError 0x2f6) : Except SIErr Segoff) with
  | .error er => .error er
  | .ok segoff =>
      createPositionReferenceFromSegoff cl segoff refType op localSeq fromSnapshot
        slidingPreference (some exclusive) rollback oid

/-- `SequenceIntervalClass.modify`: build replacement references for the
endpoints that are given a new position (stripping `SlideOnRemove` and
setting `StayOnRemove` when there is no op), keep the other endpoints, and
return a new interval with the same id, label and type, copying the property
map.  `oid` numbers the references allocated by this call. -/
def SequenceIntervalClass.modify (cl : Client) (a : SequenceIntervalClass)
    (_label : String) (start e : Option SequencePlace) (op : Option Op)
    (localSeq : Option Int) (useNewSlidingBehavior : Bool) (oid : Nat) :
    Except SIErr SequenceIntervalClass :=
  let posAndSide := endpointPosAndSide start e
  let startPos := posAndSide.1
  let startSide := posAndSide.2.1
  let endPos := posAndSide.2.2.1
  let endSide := posAndSide.2.2.2
  let startSegment := a.start.getSegment
  let endSegment := a.«end».getSegment
  let stickiness := cl.computeStickinessFromSide
    (startPos.or (startSegment.bind (fun s => s.endpointType)))
    (startSide.getD a.startSide)
    (endPos.or (endSegment.bind (fun s => s.endpointType)))
    (endSide.getD a.endSide)
  let getRefType (baseType : Nat) : Nat :=
    if op = none then
      maskOut32 baseType ReferenceType.SlideOnRemove ||| ReferenceType.StayOnRemove
    else baseType
  match (match startPos with
    | none => .ok a.start
    | some sp =>
        match createPositionReference cl sp (getRefType a.start.refType) op
          none localSeq (some (cl.startReferenceSlidingPreference stickiness))
          (decide (cl.startReferenceSlidingPreference stickiness = .BACKWARD))
          useNewSlidingBehavior none oid with
        | .error er => .error er
        | .ok r =>
            .ok (match a.start.properties with
              | some p => r.addProps p
              | none => r) : Except SIErr LocalReferencePosition) with
  | .error er => .error er
  | .ok startRef =>
      match (match endPos with
        | none => .ok a.«end»
        | some ep =>
            match createPositionReference cl ep (getRefType a.«end».refType) op
              none localSeq (some (cl.endReferenceSlidingPreference stickiness))
              (decide (cl.endReferenceSlidingPreference stickiness = .FORWARD))
              useNewSlidingBehavior none (oid + 1) with
            | .error er => .error er
            | .ok r =>
                .ok (match a.«end».properties with
                  | some p => r.addProps p
                  | none => r) : Except SIErr LocalReferencePosition) with
      | .error er => .error er
      | .ok endRef =>
          let newInterval := SequenceIntervalClass.construct a.id a.label startRef
            endRef a.intervalType none (startSide.getD a.startSide)
            (endSide.getD a.endSide)
          .ok { newInterval with properties := a.properties }

/-- `createSequenceInterval`: normalize the places (defaulting to the
sequence sentinels), choose the endpoint reference types from the interval
type and the creation origin, create both references, attach the range
label to each, and construct the interval with the reserved keys of `props`
overwritten with `undefined`. -/
def createSequenceInterval (cl : Client) (label id : String)
    (start e : Option SequencePlace) (intervalType : IntervalType)
    (op : Option Op) (fromSnapshot : Option Bool)
    (useNewSlidingBehavior : Bool) (props : Option PropertySet)
    (rollback : Option Bool) (oid : Nat) :
    Except SIErr SequenceIntervalClass :=
  let posAndSide := endpointPosAndSide (some (start.getD (.plain .seqStart)))
    (some (e.getD (.plain .seqEnd)))
  match posAndSide.1, posAndSide.2.1, posAndSide.2.2.1, posAndSide.2.2.2 with
  | some startPos, some startSide, some endPos, some endSide =>
      let stickiness := cl.computeStickinessFromSide (some startPos) startSide
        (some endPos) endSide
      let refTypes :=
        if intervalType = IntervalType.Transient then
          (ReferenceType.Transient, ReferenceType.Transient)
        else if (match op with
                 | some _ => true
                 | none => jsTruthy fromSnapshot) then
          (ReferenceType.RangeBegin ||| ReferenceType.SlideOnRemove,
           ReferenceType.RangeEnd ||| ReferenceType.SlideOnRemove)
        else
          (ReferenceType.RangeBegin ||| ReferenceType.StayOnRemove,
           ReferenceType.RangeEnd ||| ReferenceType.StayOnRemove)
      let beginRefType := refTypes.1
      let endRefType := refTypes.2
      match createPositionReference cl startPos beginRefType op
        fromSnapshot none (some (cl.startReferenceSlidingPreference stickiness))
        (decide (cl.startReferenceSlidingPreference stickiness = .BACKWARD))
        useNewSlidingBehavior rollback oid with
      | .error er => .error er
      | .ok startLref0 =>
          match createPositionReference cl endPos endRefType op
            fromSnapshot none (some (cl.endReferenceSlidingPreference stickiness))
            (decide (cl.endReferenceSlidingPreference stickiness = .FORWARD))
            useNewSlidingBehavior rollback (oid + 1) with
          | .error er => .error er
          | .ok endLref0 =>
              let rangeProp : PropertySet :=
                [(reservedRangeLabelsKey, .strList [label])]
              let startLref := startLref0.addProps rangeProp
              let endLref := endLref0.addProps rangeProp
              let ival := SequenceIntervalClass.construct id label startLref
                endLref intervalType
                (match props with
                  | none => none
                  | some p => some (eraseKey (eraseKey p reservedIntervalIdKey)
                      reservedRangeLabelsKey))
                startSide endSide
              .ok ival
  | _, _, _, _ => .error (.assertionError 0x794)

/-! ### Comparator machinery

`IsGoodCmp` captures the claim hypothesis that a three-way comparator
presents a total preorder: it is antisymmetric in value and its induced
`≤ 0` relation is transitive. -/

def IsGoodCmp {α : Type} (f : α → α → Int) : Prop :=
  (∀ x y, f x y = -(f y x)) ∧ (∀ x y z, f x y ≤ 0 → f y z ≤ 0 → f x z ≤ 0)

theorem IsGoodCmp.self_eq_zero {α : Type} {f : α → α → Int} (hf : IsGoodCmp f)
    (x : α) : f x x = 0 := by
  have := hf.1 x x; omega

theorem IsGoodCmp.zero_symm {α : Type} {f : α → α → Int} (hf : IsGoodCmp f)
    {x y : α} (h : f x y = 0) : f y x = 0 := by
  have := hf.1 x y; omega

/-- Lexicographic composition of comparators. -/
def lexCmp {α : Type} (f g : α → α → Int) (x y : α) : Int :=
  if f x y = 0 then g x y else f x y

theorem IsGoodCmp.lex {α : Type} {f g : α → α → Int} (hf : IsGoodCmp f)
    (hg : IsGoodCmp g) : IsGoodCmp (lexCmp f g) := by
  constructor
  · intro x y
    unfold lexCmp
    by_cases h : f x y = 0
    · have h' : f y x = 0 := hf.zero_symm h
      simp [h, h']
      exact hg.1 x y
    · have h' : f y x ≠ 0 := by have := hf.1 x y; omega
      simp [h, h']
      exact hf.1 x y
  · intro x y z hxy hyz
    unfold lexCmp at *
    by_cases h1 : f x y = 0 <;> by_cases h2 : f y z = 0
    · have h3 : f x z = 0 := by
        have a1 := hf.1 x y
        have a2 := hf.1 y z
        have a3 := hf.1 x z
        have t1 : f x z ≤ 0 := hf.2 x y z (by omega) (by omega)
        have t2 : f z x ≤ 0 := hf.2 z y x (by omega) (by omega)
        omega
      simp [h1, h2] at hxy hyz
      simp [h3]
      exact hg.2 x y z hxy hyz
    · have hyz' : f y z ≤ 0 := by simp [h2] at hyz; exact hyz
      have hxz : f x z ≤ 0 := hf.2 x y z (by omega) hyz'
      have hne : f x z ≠ 0 := by
        intro h0
        have a1 := hf.1 x z
        have t : f z y ≤ 0 := hf.2 z x y (by omega) (by omega)
        have a2 := hf.1 y z
        omega
      simp [hne]
      omega
    · have hxy' : f x y ≤ 0 := by simp [h1] at hxy; exact hxy
      have hxz : f x z ≤ 0 := hf.2 x y z hxy' (by omega)
      have hne : f x z ≠ 0 := by
        intro h0
        have a1 := hf.1 x z
        have t : f y x ≤ 0 := hf.2 y z x (by omega) (by omega)
        have a2 := hf.1 x y
        omega
      simp [hne]
      omega
    · have hxy' : f x y ≤ 0 := by simp [h1] at hxy; exact hxy
      have hyz' : f y z ≤ 0 := by simp [h2] at hyz; exact hyz
      have hxz : f x z ≤ 0 := hf.2 x y z hxy' hyz'
      have hne : f x z ≠ 0 := by
        intro h0
        have a1 := hf.1 x z
        have t : f z y ≤ 0 := hf.2 z x y (by omega) (by omega)
        have a2 := hf.1 y z
        omega
      simp [hne]
      omega

theorem IsGoodCmp.congr {α : Type} {f g : α → α → Int}
    (h : ∀ x y, f x y = g x y) (hg : IsGoodCmp g) : IsGoodCmp f := by
  constructor
  · intro x y; rw [h, h]; exact hg.1 x y
  · intro x y z h1 h2
    rw [h] at h1 h2 ⊢
    exact hg.2 x y z h1 h2

theorem IsGoodCmp.comap {α β : Type} (h : β → α) {f : α → α → Int}
    (hf : IsGoodCmp f) : IsGoodCmp (fun x y => f (h x) (h y)) := by
  constructor
  · intro x y; exact hf.1 _ _
  · intro x y z h1 h2; exact hf.2 _ _ _ h1 h2

/-- The id comparator inside `compare`: `thisId > bId ? 1 : thisId < bId ? -1 : 0`. -/
def strCmp (x y : String) : Int :=
  if y < x then 1 else if x < y then -1 else 0

theorem strCmp_good : IsGoodCmp strCmp := by
  constructor
  · intro x y
    unfold strCmp
    rcases lt_trichotomy x y with h | h | h
    · simp [h, lt_asymm h]
    · simp [h, lt_irrefl]
    · simp [h, lt_asymm h]
  · intro x y z hxy hyz
    unfold strCmp at *
    by_cases h1 : y < x
    · simp [h1] at hxy
    · by_cases h2 : z < y
      · simp [h2] at hyz
      · have hxz : ¬ z < x := by
          intro h
          rcases lt_trichotomy y z with h3 | h3 | h3
          · exact h1 (lt_trans h3 h)
          · exact h1 (by rw [h3]; exact h)
          · exact h2 h3
        simp [hxz]
        split <;> omega

theorem compareSides_good : IsGoodCmp (fun x y : Side => compareSides x y) := by
  constructor
  · intro x y; cases x <;> cases y <;> decide
  · intro x y z; cases x <;> cases y <;> cases z <;> decide

theorem compareSides_flip_good : IsGoodCmp (fun x y : Side => compareSides y x) := by
  constructor
  · intro x y; cases x <;> cases y <;> decide
  · intro x y z; cases x <;> cases y <;> cases z <;> decide

/-! ### Bit lemmas for the reference-type flag manipulation -/

theorem and_flag_eq_zero_of_testBit (x i : Nat) (hi : x.testBit i = false) :
    x &&& 2 ^ i = 0 := by
  rw [Nat.and_two_pow, hi]; simp

theorem and_flag_ne_zero_of_testBit (x i : Nat) (hi : x.testBit i = true) :
    x &&& 2 ^ i ≠ 0 := by
  rw [Nat.and_two_pow, hi]; simp

theorem stripSlide_testBit6 (r : Nat) :
    (maskOut32 r ReferenceType.SlideOnRemove ||| ReferenceType.StayOnRemove).testBit 6
      = false := by
  unfold maskOut32 ReferenceType.SlideOnRemove ReferenceType.StayOnRemove
  simp only [Nat.testBit_lor, Nat.testBit_land]
  rw [show ((0xFFFFFFFF : Nat) ^^^ 0x40).testBit 6 = false from by decide,
      show ((0x80 : Nat)).testBit 6 = false from by decide]
  simp

theorem stripSlide_testBit7 (r : Nat) :
    (maskOut32 r ReferenceType.SlideOnRemove ||| ReferenceType.StayOnRemove).testBit 7
      = true := by
  unfold maskOut32 ReferenceType.SlideOnRemove ReferenceType.StayOnRemove
  simp only [Nat.testBit_lor]
  rw [show ((0x80 : Nat)).testBit 7 = true from by decide]
  simp

/-- Stripping `SlideOnRemove` and setting `StayOnRemove` clears the
`SlideOnRemove` bit whatever the base flags were. -/
theorem stripSlide_clears (r : Nat) :
    refTypeIncludesFlag
      (maskOut32 r ReferenceType.SlideOnRemove ||| ReferenceType.StayOnRemove)
      ReferenceType.SlideOnRemove = false := by
  unfold refTypeIncludesFlag
  have e : ReferenceType.SlideOnRemove = 2 ^ 6 := by decide
  have h : (maskOut32 r ReferenceType.SlideOnRemove ||| ReferenceType.StayOnRemove) &&&
      ReferenceType.SlideOnRemove = 0 := by
    calc (maskOut32 r ReferenceType.SlideOnRemove ||| ReferenceType.StayOnRemove) &&&
          ReferenceType.SlideOnRemove
        = (maskOut32 r ReferenceType.SlideOnRemove ||| ReferenceType.StayOnRemove) &&&
          2 ^ 6 := by rw [e]
      _ = 0 := and_flag_eq_zero_of_testBit _ 6 (stripSlide_testBit6 r)
  rw [h]
  decide

/-- Stripping `SlideOnRemove` and setting `StayOnRemove` sets the
`StayOnRemove` bit whatever the base flags were. -/
theorem stripSlide_sets (r : Nat) :
    refTypeIncludesFlag
      (maskOut32 r ReferenceType.SlideOnRemove ||| ReferenceType.StayOnRemove)
      ReferenceType.StayOnRemove = true := by
  unfold refTypeIncludesFlag
  have e : ReferenceType.StayOnRemove = 2 ^ 7 := by decide
  have h : (maskOut32 r ReferenceType.SlideOnRemove ||| ReferenceType.StayOnRemove) &&&
      ReferenceType.StayOnRemove ≠ 0 := by
    have h2 : (maskOut32 r ReferenceType.SlideOnRemove ||| ReferenceType.StayOnRemove) &&&
        2 ^ 7 ≠ 0 := and_flag_ne_zero_of_testBit _ 7 (stripSlide_testBit7 r)
    rw [e]
    exact h2
  rw [bne_iff_ne]
  exact h

/-! ### Success-shape lemmas for the endpoint factory -/

theorem LocalReferencePosition.addProps_refType (pr : LocalReferencePosition)
    (p : PropertySet) : (pr.addProps p).refType = pr.refType := rfl

/-- Every successful `createPositionReferenceFromSegoff` carries exactly the
requested reference type. -/
theorem createPositionReferenceFromSegoff_ok_refType (cl : Client)
    (segoff : Segoff) (refType : Nat) (op : Option Op) (localSeq : Option Int)
    (fromSnapshot : Option Bool) (sp : Option SlidingPreference)
    (cs : Option Bool) (rb : Option Bool) (oid : Nat)
    (pr : LocalReferencePosition)
    (h : createPositionReferenceFromSegoff cl segoff refType op localSeq
      fromSnapshot sp cs rb oid = .ok pr) : pr.refType = refType := by
  unfold createPositionReferenceFromSegoff at h
  cases segoff <;>
    simp only [createLocalReferencePosition,
      createDetachedLocalReferencePosition] at h
  case seg s offset =>
    cases h
    rfl
  case atStart =>
    cases h
    rfl
  case atEnd =>
    cases h
    rfl
  case undef =>
    split at h
    · cases h
    · cases h
      rfl

/-- Every successful `createPositionReference` carries exactly the requested
reference type. -/
theorem createPositionReference_ok_refType (cl : Client) (pos : SeqPos)
    (refType : Nat) (op : Option Op) (fromSnapshot : Option Bool)
    (localSeq : Option Int) (sp : Option SlidingPreference) (exclusive : Bool)
    (unsb : Bool) (rb : Option Bool) (oid : Nat) (pr : LocalReferencePosition)
    (h : createPositionReference cl pos refType op fromSnapshot localSeq sp
      exclusive unsb rb oid = .ok pr) : pr.refType = refType := by
  unfold createPositionReference at h
  split at h
  · cases h
  · exact createPositionReferenceFromSegoff_ok_refType _ _ _ _ _ _ _ _ _ _ _ h

/-! ### Property-bag lookup lemmas -/

theorem lookup_map_overwrite (ps : PropertySet) (k : String) (v : PropValue) :
    lookupProp (ps.map fun kv => if kv.1 == k then (k, v) else kv) k =
      if ps.any (fun kv => kv.1 == k) then some v else none := by
  induction ps with
  | nil => rfl
  | cons kv t ih =>
      by_cases hk : (kv.1 == k) = true
      · have hhead : (if (kv.1 == k) = true then (k, v) else kv) = (k, v) := by
          simp [hk]
        unfold lookupProp
        simp only [List.map_cons, hhead, List.any_cons, hk]
        rw [List.find?_cons_of_pos _ (by simp)]
        simp
      · have hk' : (kv.1 == k) = false := by simpa using hk
        have hhead : (if (kv.1 == k) = true then (k, v) else kv) = kv := by
          simp [hk']
        simp only [List.map_cons, hhead, List.any_cons, hk']
        unfold lookupProp
        rw [List.find?_cons_of_neg _ (by simp [hk'])]
        simpa [lookupProp] using ih

theorem lookup_map_overwrite_ne (ps : PropertySet) (k k' : String) (v : PropValue)
    (h : k' ≠ k) :
    lookupProp (ps.map fun kv => if kv.1 == k' then (k', v) else kv) k =
      lookupProp ps k := by
  induction ps with
  | nil => rfl
  | cons kv t ih =>
      by_cases hk : (kv.1 == k') = true
      · have h1 : kv.1 = k' := by simpa using hk
        have hhead : (if (kv.1 == k') = true then (k', v) else kv) = (k', v) := by
          simp [hk]
        unfold lookupProp
        simp only [List.map_cons, hhead]
        rw [List.find?_cons_of_neg _ (by simp [h]),
          List.find?_cons_of_neg _ (by simp [h1, h])]
        exact ih
      · have hk' : (kv.1 == k') = false := by simpa using hk
        have hhead : (if (kv.1 == k') = true then (k', v) else kv) = kv := by
          simp [hk']
        by_cases h2 : (kv.1 == k) = true
        · unfold lookupProp
          simp only [List.map_cons, hhead]
          rw [List.find?_cons_of_pos _ (by simp [h2]),
            List.find?_cons_of_pos _ (by simp [h2])]
        · have h2' : (kv.1 == k) = false := by simpa using h2
          unfold lookupProp
          simp only [List.map_cons, hhead]
          rw [List.find?_cons_of_neg _ (by simp [h2']),
            List.find?_cons_of_neg _ (by simp [h2'])]
          exact ih

theorem lookup_append_right (ps l2 : PropertySet) (k : String)
    (h : lookupProp ps k = none) : lookupProp (ps ++ l2) k = lookupProp l2 k := by
  induction ps with
  | nil => rfl
  | cons kv t ih =>
      by_cases h2 : (kv.1 == k) = true
      · unfold lookupProp at h
        rw [List.find?_cons_of_pos _ (by simp [h2])] at h
        simp at h
      · have h2' : (kv.1 == k) = false := by simpa using h2
        unfold lookupProp at h ⊢
        rw [List.find?_cons_of_neg _ (by simp [h2'])] at h
        rw [List.cons_append, List.find?_cons_of_neg _ (by simp [h2'])]
        exact ih h

theorem lookup_append_left (ps l2 : PropertySet) (k : String) (w : PropValue)
    (h : lookupProp ps k = some w) : lookupProp (ps ++ l2) k = some w := by
  induction ps with
  | nil => simp [lookupProp] at h
  | cons kv t ih =>
      by_cases h2 : (kv.1 == k) = true
      · unfold lookupProp at h ⊢
        rw [List.find?_cons_of_pos _ (by simp [h2])] at h
        rw [List.cons_append, List.find?_cons_of_pos _ (by simp [h2])]
        exact h
      · have h2' : (kv.1 == k) = false := by simpa using h2
        unfold lookupProp at h ⊢
        rw [List.find?_cons_of_neg _ (by simp [h2'])] at h
        rw [List.cons_append, List.find?_cons_of_neg _ (by simp [h2'])]
        exact ih h

theorem lookup_none_of_any_false (ps : PropertySet) (k : String)
    (h : ps.any (fun kv => kv.1 == k) = false) : lookupProp ps k = none := by
  induction ps with
  | nil => rfl
  | cons kv t ih =>
      simp only [List.any_cons, Bool.or_eq_false_iff] at h
      unfold lookupProp
      rw [List.find?_cons_of_neg _ (by simp [h.1])]
      exact ih h.2

theorem lookupProp_setKey_self (ps : PropertySet) (k : String) (v : PropValue) :
    lookupProp (setKey ps k v) k = some v := by
  unfold setKey
  split
  case isTrue h => rw [lookup_map_overwrite, if_pos h]
  case isFalse h =>
    have hb : ps.any (fun kv => kv.1 == k) = false := by
      cases hx : ps.any (fun kv => kv.1 == k)
      · rfl
      · exact absurd hx h
    rw [lookup_append_right _ _ _ (lookup_none_of_any_false _ _ hb)]
    simp [lookupProp, List.find?]

theorem lookupProp_setKey_ne (ps : PropertySet) (k k' : String) (v : PropValue)
    (h : k' ≠ k) : lookupProp (setKey ps k' v) k = lookupProp ps k := by
  unfold setKey
  split
  · exact lookup_map_overwrite_ne ps k k' v h
  · cases hx : lookupProp ps k with
    | none =>
        rw [lookup_append_right _ _ _ hx]
        simp [lookupProp, List.find?, show (k' == k) = false from by simp [h], hx]
    | some w =>
        rw [lookup_append_left _ _ _ _ hx]

theorem lookupProp_addProperties_of_not_mem (q : PropertySet) (k : String)
    (hk : ∀ kv ∈ q, kv.1 ≠ k) (acc : PropertySet) :
    lookupProp (addProperties acc q) k = lookupProp acc k := by
  unfold addProperties
  induction q generalizing acc with
  | nil => rfl
  | cons kv t ih =>
      simp only [List.foldl_cons]
      rw [ih (fun kv h => hk kv (List.mem_cons_of_mem _ h))]
      exact lookupProp_setKey_ne acc k kv.1 kv.2 (hk kv (List.mem_cons_self _ _))

theorem eraseKey_keys_ne (ps : PropertySet) (k : String) :
    ∀ kv ∈ eraseKey ps k, kv.1 ≠ k := by
  intro kv hm
  unfold eraseKey at hm
  have := List.of_mem_filter hm
  simpa using this

/-! ### The interval comparator as a lexicographic composition -/

theorem compareStart_good (c : RefCmp) (hc : IsGoodCmp c) :
    IsGoodCmp (SequenceIntervalClass.compareStart c) :=
  IsGoodCmp.congr (fun _ _ => rfl)
    ((hc.comap (fun i : SequenceIntervalClass => i.start)).lex
      (compareSides_good.comap (fun i : SequenceIntervalClass => i.startSide)))

theorem compareEnd_good (c : RefCmp) (hc : IsGoodCmp c) :
    IsGoodCmp (SequenceIntervalClass.compareEnd c) :=
  IsGoodCmp.congr (fun _ _ => rfl)
    ((hc.comap (fun i : SequenceIntervalClass => i.«end»)).lex
      (compareSides_flip_good.comap (fun i : SequenceIntervalClass => i.endSide)))

theorem compare_good (c : RefCmp) (hc : IsGoodCmp c) :
    IsGoodCmp (lexCmp (SequenceIntervalClass.compareStart c)
      (lexCmp (SequenceIntervalClass.compareEnd c)
        (fun x y => strCmp x.getIntervalId y.getIntervalId))) :=
  (compareStart_good c hc).lex ((compareEnd_good c hc).lex
    (strCmp_good.comap (fun i : SequenceIntervalClass => i.getIntervalId)))

/-- With non-empty ids, `compare` is exactly the lexicographic composition of
`compareStart`, `compareEnd` and the id comparator. -/
theorem compare_eq_lex3 (c : RefCmp) (a b : SequenceIntervalClass)
    (ha : a.getIntervalId ≠ "") (hb : b.getIntervalId ≠ "") :
    SequenceIntervalClass.compare c a b =
      lexCmp (SequenceIntervalClass.compareStart c)
        (lexCmp (SequenceIntervalClass.compareEnd c)
          (fun x y => strCmp x.getIntervalId y.getIntervalId)) a b := by
  unfold SequenceIntervalClass.compare lexCmp strCmp
  simp [ha, hb]

/-! ### Commutativity of the min/max reference selectors up to comparison -/

theorem minReferencePosition_comm_cmp (c : RefCmp)
    (hanti : ∀ x y, c x y = -(c y x)) (x y : LocalReferencePosition) :
    c (minReferencePosition c x y) (minReferencePosition c y x) = 0 := by
  unfold minReferencePosition
  have h1 := hanti x y
  have hxx := hanti x x
  have hyy := hanti y y
  rcases lt_trichotomy (c x y) 0 with h | h | h
  · rw [if_pos h, if_neg (by omega)]; omega
  · rw [if_neg (by omega), if_neg (by omega)]; omega
  · rw [if_neg (by omega), if_pos (by omega)]; omega

theorem maxReferencePosition_comm_cmp (c : RefCmp)
    (hanti : ∀ x y, c x y = -(c y x)) (x y : LocalReferencePosition) :
    c (maxReferencePosition c x y) (maxReferencePosition c y x) = 0 := by
  unfold maxReferencePosition
  have h1 := hanti x y
  have hxx := hanti x x
  have hyy := hanti y y
  rcases lt_trichotomy (c x y) 0 with h | h | h
  · rw [if_neg (by omega), if_pos (by omega)]; omega
  · rw [if_neg (by omega), if_neg (by omega)]; omega
  · rw [if_pos h, if_neg (by omega)]; omega

/-! ### Concrete collaborators and values used to exercise the theorems -/

/-- A small concrete merge-tree client: every position resolves to a segment
tagged with the position, references resolve to their `oid`. -/
def clW : Client :=
  { lrpToPos := fun pr => (pr.oid : Int),
    currentSeq := 0,
    getContainingSegment := fun n _ _ => some ({ endpointType := none, sid := n.toNat }, 0),
    slideToSegoff := fun so _ _ =>
      match so with
      | some (s, o) => .seg s o
      | none => .undef,
    computeStickinessFromSide := fun _ _ _ _ => 0,
    startReferenceSlidingPreference := fun _ => .FORWARD,
    endReferenceSlidingPreference := fun _ => .FORWARD }

/-- A concrete reference comparator: compare object ids. -/
def cOid : RefCmp := fun x y => (x.oid : Int) - (y.oid : Int)

theorem cOid_good : IsGoodCmp cOid := by
  constructor
  · intro x y
    unfold cOid
    omega
  · intro x y z h1 h2
    unfold cOid at *
    omega

def prA : LocalReferencePosition :=
  { oid := 1, refType := 0x50, slidingPreference := some .FORWARD,
    canSlideToEndpoint := some false,
    segment := some { endpointType := none, sid := 5 },
    offset := some 0, properties := none }

def prB : LocalReferencePosition :=
  { oid := 2, refType := 0x60, slidingPreference := some .FORWARD,
    canSlideToEndpoint := some false,
    segment := some { endpointType := none, sid := 6 },
    offset := some 0, properties := none }

def prC : LocalReferencePosition :=
  { oid := 3, refType := 0x50, slidingPreference := some .FORWARD,
    canSlideToEndpoint := some false,
    segment := some { endpointType := none, sid := 7 },
    offset := some 0, properties := none }

def prD : LocalReferencePosition :=
  { oid := 4, refType := 0x60, slidingPreference := some .FORWARD,
    canSlideToEndpoint := some false,
    segment := some { endpointType := none, sid := 8 },
    offset := some 0, properties := none }

/-! ### Success shape of `createSequenceInterval` -/

theorem createSequenceInterval_ok_fields (cl : Client) (label id : String)
    (start e : Option SequencePlace) (it : IntervalType) (op : Option Op)
    (fs : Option Bool) (unsb : Bool) (props : Option PropertySet)
    (rb : Option Bool) (oid : Nat) (ival : SequenceIntervalClass)
    (hok : createSequenceInterval cl label id start e it op fs unsb props rb oid
      = .ok ival) :
    ival.id = id ∧ ival.label = label ∧ ival.intervalType = it ∧
    ival.properties = props.elim [] (fun p => addProperties []
      (eraseKey (eraseKey p reservedIntervalIdKey) reservedRangeLabelsKey)) ∧
    ival.start.refType = (if it = IntervalType.Transient then ReferenceType.Transient
      else if op ≠ none ∨ jsTruthy fs = true then
        ReferenceType.RangeBegin ||| ReferenceType.SlideOnRemove
      else ReferenceType.RangeBegin ||| ReferenceType.StayOnRemove) ∧
    ival.«end».refType = (if it = IntervalType.Transient then ReferenceType.Transient
      else if op ≠ none ∨ jsTruthy fs = true then
        ReferenceType.RangeEnd ||| ReferenceType.SlideOnRemove
      else ReferenceType.RangeEnd ||| ReferenceType.StayOnRemove) := by
  rcases start with _ | (p | ⟨pos, side⟩) <;>
    rcases e with _ | (q | ⟨pos2, side2⟩) <;>
    rcases op with _ | o <;>
    by_cases hT : it = IntervalType.Transient <;>
    cases hOS : jsTruthy fs <;>
    simp only [createSequenceInterval, Option.getD, endpointPosAndSide,
      placePosAndSide, hT, hOS, if_true, if_false, ite_true, ite_false] at hok <;>
    (split at hok
     · exact Except.noConfusion hok
     · rename_i startLref0 heq1
       split at hok
       · exact Except.noConfusion hok
       · rename_i endLref0 heq2
         injection hok with h
         subst h
         have hr1 := createPositionReference_ok_refType _ _ _ _ _ _ _ _ _ _ _ _ heq1
         have hr2 := createPositionReference_ok_refType _ _ _ _ _ _ _ _ _ _ _ _ heq2
         rcases props with _ | p0 <;>
           refine ⟨rfl, rfl, ?_, ?_, ?_, ?_⟩ <;>
           simp [hT, hOS, SequenceIntervalClass.construct,
             LocalReferencePosition.addProps, hr1, hr2])

/-! ## Claim C1 -/

/-- C1 counterexample: creating a transient interval yields endpoint
reference types equal to `Transient` alone (0x100) — the source assigns
`ReferenceType.Transient`, it does not OR it into `RangeBegin`/`RangeEnd` —
refuting the claim that the begin refType equals `RangeBegin` with
`Transient` OR-ed in and the end refType equals `RangeEnd` with `Transient`
OR-ed in. -/
theorem C1_counterexample_transientRefType :
    (createSequenceInterval clW "transient" "i1" (some (.plain (.num 0)))
      (some (.plain (.num 1))) IntervalType.Transient none none false none none
      20).toOption.map (fun i => (i.start.refType, i.«end».refType))
      = some (ReferenceType.Transient, ReferenceType.Transient) ∧
    ReferenceType.Transient ≠ (ReferenceType.RangeBegin ||| ReferenceType.Transient) ∧
    ReferenceType.Transient ≠ (ReferenceType.RangeEnd ||| ReferenceType.Transient) := by
  refine ⟨by decide, by decide, by decide⟩

/-- C1 (amended): for every interval created via `createSequenceInterval`:
when `intervalType == Transient`, both endpoint refTypes equal exactly
`Transient` (rather than `RangeBegin`/`RangeEnd` with `Transient` OR-ed in);
otherwise both endpoint refTypes include `SlideOnRemove` exactly when the
creation originates from an op or a snapshot, and include `StayOnRemove`
(and not `SlideOnRemove`) otherwise. -/
theorem C1_createSequenceInterval_refTypes (cl : Client) (label id : String)
    (start e : Option SequencePlace) (it : IntervalType) (op : Option Op)
    (fs : Option Bool) (unsb : Bool) (props : Option PropertySet)
    (rb : Option Bool) (oid : Nat) (ival : SequenceIntervalClass)
    (hok : createSequenceInterval cl label id start e it op fs unsb props rb oid
      = .ok ival) :
    (it = IntervalType.Transient →
      ival.start.refType = ReferenceType.Transient ∧
      ival.«end».refType = ReferenceType.Transient) ∧
    (it ≠ IntervalType.Transient →
      (refTypeIncludesFlag ival.start.refType ReferenceType.SlideOnRemove = true ↔
        (op ≠ none ∨ jsTruthy fs = true)) ∧
      (refTypeIncludesFlag ival.«end».refType ReferenceType.SlideOnRemove = true ↔
        (op ≠ none ∨ jsTruthy fs = true)) ∧
      ((op = none ∧ jsTruthy fs = false) →
        refTypeIncludesFlag ival.start.refType ReferenceType.StayOnRemove = true ∧
        refTypeIncludesFlag ival.start.refType ReferenceType.SlideOnRemove = false ∧
        refTypeIncludesFlag ival.«end».refType ReferenceType.StayOnRemove = true ∧
        refTypeIncludesFlag ival.«end».refType ReferenceType.SlideOnRemove = false)) := by
  obtain ⟨-, -, -, -, h5, h6⟩ :=
    createSequenceInterval_ok_fields _ _ _ _ _ _ _ _ _ _ _ _ _ hok
  constructor
  · intro hT
    rw [if_pos hT] at h5 h6
    exact ⟨h5, h6⟩
  · intro hT
    rw [if_neg hT] at h5 h6
    by_cases hc : op ≠ none ∨ jsTruthy fs = true
    · rw [if_pos hc] at h5 h6
      rw [h5, h6]
      refine ⟨by simp [hc]; decide, by simp [hc]; decide, ?_⟩
      rintro ⟨hop, hfs⟩
      exact absurd hc (by simp [hop, hfs])
    · rw [if_neg hc] at h5 h6
      rw [h5, h6]
      push_neg at hc
      refine ⟨by simp [hc.1, hc.2]; decide, by simp [hc.1, hc.2]; decide, ?_⟩
      intro hdone
      refine ⟨by decide, by decide, by decide, by decide⟩

def c1wStart : LocalReferencePosition :=
  { oid := 30, refType := 144, slidingPreference := some .FORWARD,
    canSlideToEndpoint := some false,
    segment := some { endpointType := none, sid := 0 },
    offset := some 0,
    properties := some [("referenceRangeLabels", .strList ["lab"])] }

def c1wEnd : LocalReferencePosition :=
  { oid := 31, refType := 160, slidingPreference := some .FORWARD,
    canSlideToEndpoint := some true,
    segment := some { endpointType := none, sid := 1 },
    offset := some 0,
    properties := some [("referenceRangeLabels", .strList ["lab"])] }

/-- The interval produced by the concrete local (no-op, no-snapshot)
creation used to exercise C1. -/
def c1wIval : SequenceIntervalClass :=
  { id := "i4", label := "lab", start := c1wStart, «end» := c1wEnd,
    intervalType := .SlideOnRemove, properties := [],
    startSide := .Before, endSide := .Before }

/-- Witness for C1: a concrete local creation succeeds and its endpoints
carry `StayOnRemove` and not `SlideOnRemove`. -/
theorem C1_createSequenceInterval_refTypes_witness :
    createSequenceInterval clW "lab" "i4" (some (.plain (.num 0)))
      (some (.plain (.num 1))) IntervalType.SlideOnRemove none none false none
      none 30 = .ok c1wIval ∧
    (refTypeIncludesFlag c1wIval.start.refType ReferenceType.StayOnRemove = true ∧
     refTypeIncludesFlag c1wIval.start.refType ReferenceType.SlideOnRemove = false ∧
     refTypeIncludesFlag c1wIval.«end».refType ReferenceType.StayOnRemove = true ∧
     refTypeIncludesFlag c1wIval.«end».refType ReferenceType.SlideOnRemove = false) :=
  ⟨by decide,
    ((C1_createSequenceInterval_refTypes clW "lab" "i4" (some (.plain (.num 0)))
      (some (.plain (.num 1))) IntervalType.SlideOnRemove none none false none
      none 30 c1wIval (by decide)).2 (by decide)).2.2 ⟨rfl, rfl⟩⟩

/-! ## Claim C2 -/

theorem matchProps_refType (o : Option PropertySet) (r : LocalReferencePosition) :
    (match o with | some p => r.addProps p | none => r).refType = r.refType := by
  cases o <;> rfl

/-- C2: for every interval `i` and successful call `i.modify(label, start,
end, op, ...)`: the result keeps `getIntervalId()`; an endpoint with no new
position supplied remains the identical reference object; when `op` is
undefined every replacement endpoint refType has `SlideOnRemove` cleared and
`StayOnRemove` set, and with `op` defined the existing flags are kept. -/
theorem C2_modify_id_endpoints_refTypes (cl : Client) (a : SequenceIntervalClass)
    (label : String) (start e : Option SequencePlace) (op : Option Op)
    (localSeq : Option Int) (unsb : Bool) (oid : Nat)
    (i' : SequenceIntervalClass)
    (hok : a.modify cl label start e op localSeq unsb oid = .ok i') :
    i'.getIntervalId = a.getIntervalId ∧
    ((endpointPosAndSide start e).1 = none → i'.start = a.start) ∧
    ((endpointPosAndSide start e).2.2.1 = none → i'.«end» = a.«end») ∧
    (op = none →
      ((endpointPosAndSide start e).1 ≠ none →
        refTypeIncludesFlag i'.start.refType ReferenceType.SlideOnRemove = false ∧
        refTypeIncludesFlag i'.start.refType ReferenceType.StayOnRemove = true) ∧
      ((endpointPosAndSide start e).2.2.1 ≠ none →
        refTypeIncludesFlag i'.«end».refType ReferenceType.SlideOnRemove = false ∧
        refTypeIncludesFlag i'.«end».refType ReferenceType.StayOnRemove = true)) ∧
    (op ≠ none →
      ((endpointPosAndSide start e).1 ≠ none →
        i'.start.refType = a.start.refType) ∧
      ((endpointPosAndSide start e).2.2.1 ≠ none →
        i'.«end».refType = a.«end».refType)) := by
  rcases start with _ | (p | ⟨pos, side⟩) <;>
    rcases e with _ | (q | ⟨pos2, side2⟩) <;>
    rcases op with _ | o <;>
    simp only [SequenceIntervalClass.modify, endpointPosAndSide,
      placePosAndSide] at hok <;>
    first
    | -- both endpoints replaced
      (split at hok
       · exact Except.noConfusion hok
       · rename_i startRef heqS
         split at heqS
         · exact Except.noConfusion heqS
         · rename_i r1 hcr1
           injection heqS with heqS
           split at hok
           · exact Except.noConfusion hok
           · rename_i endRef heqE
             split at heqE
             · exact Except.noConfusion heqE
             · rename_i r2 hcr2
               injection heqE with heqE
               injection hok with hok
               subst hok heqS heqE
               have hr1 := createPositionReference_ok_refType _ _ _ _ _ _ _ _ _ _ _ _ hcr1
               have hr2 := createPositionReference_ok_refType _ _ _ _ _ _ _ _ _ _ _ _ hcr2
               refine ⟨rfl, ?_, ?_, ?_, ?_⟩ <;>
                 simp [endpointPosAndSide, placePosAndSide,
                   SequenceIntervalClass.construct,
                   SequenceIntervalClass.getIntervalId, matchProps_refType,
                   hr1, hr2, stripSlide_clears, stripSlide_sets])
    | -- only start replaced
      (split at hok
       · exact Except.noConfusion hok
       · rename_i startRef heqS
         split at heqS
         · exact Except.noConfusion heqS
         · rename_i r1 hcr1
           injection heqS with heqS
           injection hok with hok
           subst hok heqS
           have hr1 := createPositionReference_ok_refType _ _ _ _ _ _ _ _ _ _ _ _ hcr1
           refine ⟨rfl, ?_, ?_, ?_, ?_⟩ <;>
             simp [endpointPosAndSide, placePosAndSide,
               SequenceIntervalClass.construct,
               SequenceIntervalClass.getIntervalId, matchProps_refType,
               hr1, stripSlide_clears, stripSlide_sets])
    | -- only end replaced
      (split at hok
       · exact Except.noConfusion hok
       · rename_i endRef heqE
         split at heqE
         · exact Except.noConfusion heqE
         · rename_i r2 hcr2
           injection heqE with heqE
           injection hok with hok
           subst hok heqE
           have hr2 := createPositionReference_ok_refType _ _ _ _ _ _ _ _ _ _ _ _ hcr2
           refine ⟨rfl, ?_, ?_, ?_, ?_⟩ <;>
             simp [endpointPosAndSide, placePosAndSide,
               SequenceIntervalClass.construct,
               SequenceIntervalClass.getIntervalId, matchProps_refType,
               hr2, stripSlide_clears, stripSlide_sets])
    | -- neither endpoint replaced
      (injection hok with hok
       subst hok
       refine ⟨rfl, ?_, ?_, ?_, ?_⟩ <;>
         simp [endpointPosAndSide, placePosAndSide,
           SequenceIntervalClass.construct,
           SequenceIntervalClass.getIntervalId])


def aW : SequenceIntervalClass :=
  SequenceIntervalClass.construct "idA" "lab" prA prB .SlideOnRemove none
    .Before .Before

def c2wStart : LocalReferencePosition :=
  { oid := 100, refType := 144, slidingPreference := some .FORWARD,
    canSlideToEndpoint := some false,
    segment := some { endpointType := none, sid := 1 },
    offset := some 0, properties := none }

/-- The interval a concrete local `modify` of `aW` produces. -/
def c2wIval : SequenceIntervalClass :=
  { id := "idA", label := "lab", start := c2wStart, «end» := prB,
    intervalType := .SlideOnRemove, properties := [],
    startSide := .Before, endSide := .Before }

/-- Witness for C2: a concrete local modification succeeds, keeps the id,
keeps the untouched end reference object, and its replacement start carries
`StayOnRemove` and not `SlideOnRemove`. -/
theorem C2_modify_id_endpoints_refTypes_witness :
    aW.modify clW "lab" (some (.plain (.num 1))) none none none false 100
      = .ok c2wIval ∧
    (c2wIval.getIntervalId = aW.getIntervalId ∧ c2wIval.«end» = aW.«end» ∧
     refTypeIncludesFlag c2wIval.start.refType ReferenceType.SlideOnRemove = false ∧
     refTypeIncludesFlag c2wIval.start.refType ReferenceType.StayOnRemove = true) :=
  ⟨by decide, by
    have h := C2_modify_id_endpoints_refTypes clW aW "lab"
      (some (.plain (.num 1))) none none none false 100 c2wIval (by decide)
    exact ⟨h.1, h.2.2.1 (by decide), ((h.2.2.2.1 rfl).1 (by decide)).1,
      ((h.2.2.2.1 rfl).1 (by decide)).2⟩⟩

/-! ## Claim C3 -/

theorem jsFalsyNum_iff (l : Option Int) :
    jsFalsyNum l = true ↔ (l = none ∨ l = some 0) := by
  cases l with
  | none => simp [jsFalsyNum]
  | some v => simp [jsFalsyNum]

/-- C3 (amended): `createPositionReferenceFromSegoff` raises the UsageError
"Non-transient references need segment" exactly when the resolved segment is
undefined, no op is given, the localSeq is absent **or zero** (JS
truthiness of the number), the request is not from a snapshot, is not a
rollback, and the refType does not include `Transient`; in every other
undefined-segment case the detached reference carrying only the sliding
preference and the refType is returned instead. -/
theorem C3_createPositionReferenceFromSegoff_usageError (cl : Client)
    (segoff : Segoff) (refType : Nat) (op : Option Op) (localSeq : Option Int)
    (fromSnapshot : Option Bool) (sp : Option SlidingPreference)
    (cs : Option Bool) (rb : Option Bool) (oid : Nat) :
    (createPositionReferenceFromSegoff cl segoff refType op localSeq
        fromSnapshot sp cs rb oid
      = .error (.usageError "Non-transient references need segment")
      ↔ (segoff = Segoff.undef ∧ op = none ∧
         (localSeq = none ∨ localSeq = some 0) ∧
         jsTruthy fromSnapshot = false ∧
         refTypeIncludesFlag refType ReferenceType.Transient = false ∧
         jsTruthy rb = false)) ∧
    (segoff = Segoff.undef →
      ¬(op = none ∧ (localSeq = none ∨ localSeq = some 0) ∧
        jsTruthy fromSnapshot = false ∧
        refTypeIncludesFlag refType ReferenceType.Transient = false ∧
        jsTruthy rb = false) →
      createPositionReferenceFromSegoff cl segoff refType op localSeq
        fromSnapshot sp cs rb oid
        = .ok (createDetachedLocalReferencePosition oid sp refType)) := by
  cases segoff with
  | seg s offset =>
      constructor
      · simp [createPositionReferenceFromSegoff]
      · intro h; exact absurd h (by simp)
  | atStart =>
      constructor
      · simp [createPositionReferenceFromSegoff]
      · intro h; exact absurd h (by simp)
  | atEnd =>
      constructor
      · simp [createPositionReferenceFromSegoff]
      · intro h; exact absurd h (by simp)
  | undef =>
      by_cases hc : op = none ∧ jsFalsyNum localSeq = true ∧
          jsTruthy fromSnapshot = false ∧
          refTypeIncludesFlag refType ReferenceType.Transient = false ∧
          jsTruthy rb = false
      · have hres : createPositionReferenceFromSegoff cl Segoff.undef refType op
            localSeq fromSnapshot sp cs rb oid
            = .error (.usageError "Non-transient references need segment") := by
          simp only [createPositionReferenceFromSegoff, if_pos hc]
        constructor
        · rw [hres]
          constructor
          · intro _
            exact ⟨rfl, hc.1, (jsFalsyNum_iff localSeq).mp hc.2.1, hc.2.2.1,
              hc.2.2.2.1, hc.2.2.2.2⟩
          · intro _; rfl
        · intro _ hneg
          exact absurd ⟨hc.1, (jsFalsyNum_iff localSeq).mp hc.2.1, hc.2.2.1,
            hc.2.2.2.1, hc.2.2.2.2⟩ hneg
      · have hres : createPositionReferenceFromSegoff cl Segoff.undef refType op
            localSeq fromSnapshot sp cs rb oid
            = .ok (createDetachedLocalReferencePosition oid sp refType) := by
          simp only [createPositionReferenceFromSegoff, if_neg hc]
        constructor
        · rw [hres]
          constructor
          · intro h; exact Except.noConfusion h
          · rintro ⟨-, h1, h2, h3, h4, h5⟩
            exact absurd ⟨h1, (jsFalsyNum_iff localSeq).mpr h2, h3, h4, h5⟩ hc
        · intro _ _
          exact hres


/-- C3 counterexample: a request that carries `localSeq = 0` still raises
the UsageError, although the claim says that a request carrying a localSeq
returns a detached reference instead of an error. -/
theorem C3_counterexample_zeroLocalSeq :
    createPositionReferenceFromSegoff clW Segoff.undef ReferenceType.RangeBegin
      none (some 0) none none none none 7
      = .error (.usageError "Non-transient references need segment") ∧
    (some 0 : Option Int) ≠ none :=
  ⟨by decide, by decide⟩

/-- Witness for C3: with no localSeq the error fires; with a nonzero
localSeq the detached reference is returned. -/
theorem C3_createPositionReferenceFromSegoff_usageError_witness :
    createPositionReferenceFromSegoff clW Segoff.undef ReferenceType.RangeBegin
      none none none (some SlidingPreference.FORWARD) none none 8
      = .error (.usageError "Non-transient references need segment") ∧
    createPositionReferenceFromSegoff clW Segoff.undef ReferenceType.RangeBegin
      none (some 3) none (some SlidingPreference.FORWARD) none none 8
      = .ok (createDetachedLocalReferencePosition 8
          (some SlidingPreference.FORWARD) ReferenceType.RangeBegin) :=
  ⟨(C3_createPositionReferenceFromSegoff_usageError clW Segoff.undef
      ReferenceType.RangeBegin none none none (some SlidingPreference.FORWARD)
      none none 8).1.mpr ⟨rfl, rfl, Or.inl rfl, rfl, by decide, rfl⟩,
   (C3_createPositionReferenceFromSegoff_usageError clW Segoff.undef
      ReferenceType.RangeBegin none (some 3) none
      (some SlidingPreference.FORWARD) none none 8).2 rfl (by decide)⟩

/-! ## Claim C4 -/

def sd37 : SerializedIntervalDelta :=
  { start := some (.num 3), «end» := some (.num 7), startSide := none,
    endSide := none, intervalType := .SlideOnRemove, stickiness := none,
    sequenceNumber := 0, properties := some [] }

/-- C4, code evaluated at the failing input: deserializing
`{start: 3, end: 7, properties: {}}` synthesizes the id `"legacy3-7"` as the
claim states, but the returned labels are `undefined` — the destructuring in
the source has no `?? []` default, contradicting the declared return type
`labels: string[]` and the claim's `[]`.  In general the labels field is the
raw lookup of `"referenceRangeLabels"` and the id is that lookup's value or
the synthesized legacy string. -/
theorem C4_getSerializedProperties_legacyId_labelsUndefined :
    getSerializedProperties sd37 =
      { id := .str "legacy3-7", labels := none, properties := [] } ∧
    (∀ si : SerializedIntervalDelta,
      (getSerializedProperties si).labels =
        lookupProp (si.properties.getD []) reservedRangeLabelsKey) ∧
    (∀ si : SerializedIntervalDelta,
      (getSerializedProperties si).id =
        (lookupProp (si.properties.getD []) reservedIntervalIdKey).getD
          (.str (legacyIdPrefix ++ posToTemplateString si.start ++ "-"
            ++ posToTemplateString si.«end»))) :=
  ⟨by decide, fun si => rfl, fun si => rfl⟩

/-! ## Claim C5 -/

/-- C5: `compare` is lexicographic on `(compareStart, compareEnd, id)` with
ids compared lexicographically as strings, and — for intervals with
non-empty ids, assuming the underlying reference comparator is a total
preorder (`IsGoodCmp`) — it is a total order: `compare(a,a) = 0`,
antisymmetric (`compare(a,b) = -compare(b,a)`), and transitive. -/
theorem C5_compare_totalOrder (c : RefCmp) (hc : IsGoodCmp c)
    (a b d : SequenceIntervalClass)
    (ha : a.getIntervalId ≠ "") (hb : b.getIntervalId ≠ "")
    (hd : d.getIntervalId ≠ "") :
    SequenceIntervalClass.compare c a b =
      (if SequenceIntervalClass.compareStart c a b ≠ 0 then
        SequenceIntervalClass.compareStart c a b
      else if SequenceIntervalClass.compareEnd c a b ≠ 0 then
        SequenceIntervalClass.compareEnd c a b
      else if b.getIntervalId < a.getIntervalId then 1
      else if a.getIntervalId < b.getIntervalId then -1 else 0) ∧
    SequenceIntervalClass.compare c a a = 0 ∧
    SequenceIntervalClass.compare c a b = -(SequenceIntervalClass.compare c b a) ∧
    (SequenceIntervalClass.compare c a b ≤ 0 →
      SequenceIntervalClass.compare c b d ≤ 0 →
      SequenceIntervalClass.compare c a d ≤ 0) := by
  have hg := compare_good c hc
  refine ⟨?_, ?_, ?_, ?_⟩
  · rw [compare_eq_lex3 c a b ha hb]
    unfold lexCmp strCmp
    by_cases h1 : SequenceIntervalClass.compareStart c a b = 0 <;>
      by_cases h2 : SequenceIntervalClass.compareEnd c a b = 0 <;>
      simp [h1, h2]
  · rw [compare_eq_lex3 c a a ha ha]
    exact hg.self_eq_zero a
  · rw [compare_eq_lex3 c a b ha hb, compare_eq_lex3 c b a hb ha]
    exact hg.1 a b
  · intro h1 h2
    rw [compare_eq_lex3 c a b ha hb] at h1
    rw [compare_eq_lex3 c b d hb hd] at h2
    rw [compare_eq_lex3 c a d ha hd]
    exact hg.2 a b d h1 h2

/-- Witness for C5: the concrete oid comparator satisfies the total-preorder
hypothesis, and a concrete interval compares equal to itself. -/
theorem C5_compare_totalOrder_witness :
    (∀ x y, cOid x y = -(cOid y x)) ∧
    SequenceIntervalClass.compare cOid aW aW = 0 :=
  ⟨cOid_good.1,
   (C5_compare_totalOrder cOid cOid_good aW aW aW (by decide) (by decide)
     (by decide)).2.1⟩

/-! ## Claim C6 -/

/-- C6: for all intervals `a`, `b`, `a.union(b)` has
`start = minReferencePosition(a.start, b.start)` and
`end = maxReferencePosition(a.end, b.end)`; when the two start references
are the identical object the result's startSide is `Before` iff either
operand's startSide is `Before`, and symmetrically the result's endSide is
`After` unless both operands' endSides are `Before`; the result carries the
freshly generated uuid (distinct from both inputs' ids by uuid freshness),
inherits `a`'s label and intervalType, and has empty properties. -/
theorem C6_union_fields (c : RefCmp) (a b : SequenceIntervalClass)
    (freshId : String) (hfa : freshId ≠ a.getIntervalId)
    (hfb : freshId ≠ b.getIntervalId) :
    (SequenceIntervalClass.union c a b freshId).start
      = minReferencePosition c a.start b.start ∧
    (SequenceIntervalClass.union c a b freshId).«end»
      = maxReferencePosition c a.«end» b.«end» ∧
    (a.start = b.start →
      (SequenceIntervalClass.union c a b freshId).startSide =
        (if a.startSide = Side.Before ∨ b.startSide = Side.Before then
          Side.Before else Side.After)) ∧
    (a.«end» = b.«end» →
      (SequenceIntervalClass.union c a b freshId).endSide =
        (if a.endSide = Side.Before ∧ b.endSide = Side.Before then
          Side.Before else Side.After)) ∧
    (SequenceIntervalClass.union c a b freshId).getIntervalId = freshId ∧
    (SequenceIntervalClass.union c a b freshId).getIntervalId ≠ a.getIntervalId ∧
    (SequenceIntervalClass.union c a b freshId).getIntervalId ≠ b.getIntervalId ∧
    (SequenceIntervalClass.union c a b freshId).label = a.label ∧
    (SequenceIntervalClass.union c a b freshId).intervalType = a.intervalType ∧
    (SequenceIntervalClass.union c a b freshId).properties = [] := by
  refine ⟨rfl, rfl, ?_, ?_, rfl, hfa, hfb, rfl, rfl, rfl⟩
  · intro h
    simp only [SequenceIntervalClass.union, SequenceIntervalClass.construct,
      if_pos h]
    cases hsa : a.startSide <;> cases hsb : b.startSide <;>
      simp [minSide, hsa, hsb]
  · intro h
    simp only [SequenceIntervalClass.union, SequenceIntervalClass.construct,
      if_pos h]
    cases hsa : a.endSide <;> cases hsb : b.endSide <;>
      simp [maxSide, hsa, hsb]

/-- Witness for C6: a concrete union of two intervals with identical start
references picks `Before` on the tied start side and carries the fresh id. -/
theorem C6_union_fields_witness :
    ("u0" ≠ aW.getIntervalId) ∧
    (SequenceIntervalClass.union cOid aW aW "u0").getIntervalId = "u0" ∧
    (SequenceIntervalClass.union cOid aW aW "u0").startSide = Side.Before ∧
    (SequenceIntervalClass.union cOid aW aW "u0").properties = [] := by
  have h := C6_union_fields cOid aW aW "u0" (by decide) (by decide)
  exact ⟨by decide, h.2.2.2.2.1, by rw [h.2.2.1 rfl]; decide, h.2.2.2.2.2.2.2.2.2⟩

/-! ## Claim C7 -/

def bW : SequenceIntervalClass :=
  SequenceIntervalClass.construct "idB" "lab" prC prD .SlideOnRemove none
    .Before .Before

/-- C7: for all intervals `a`, `b`, the unions `a.union(b)` and `b.union(a)`
have starts comparing equal and ends comparing equal under the reference
comparator (position commutativity, assuming the comparator is
antisymmetric), and with fresh uuids both results carry ids distinct from
`a`'s id, from `b`'s id, and from each other. -/
theorem C7_union_commutative_positions (c : RefCmp)
    (hanti : ∀ x y, c x y = -(c y x)) (a b : SequenceIntervalClass)
    (f1 f2 : String) (h1a : f1 ≠ a.getIntervalId) (h1b : f1 ≠ b.getIntervalId)
    (h2a : f2 ≠ a.getIntervalId) (h2b : f2 ≠ b.getIntervalId)
    (h12 : f1 ≠ f2) :
    c (SequenceIntervalClass.union c a b f1).start
      (SequenceIntervalClass.union c b a f2).start = 0 ∧
    c (SequenceIntervalClass.union c a b f1).«end»
      (SequenceIntervalClass.union c b a f2).«end» = 0 ∧
    (SequenceIntervalClass.union c a b f1).getIntervalId ≠ a.getIntervalId ∧
    (SequenceIntervalClass.union c a b f1).getIntervalId ≠ b.getIntervalId ∧
    (SequenceIntervalClass.union c b a f2).getIntervalId ≠ a.getIntervalId ∧
    (SequenceIntervalClass.union c b a f2).getIntervalId ≠ b.getIntervalId ∧
    (SequenceIntervalClass.union c a b f1).getIntervalId
      ≠ (SequenceIntervalClass.union c b a f2).getIntervalId := by
  refine ⟨?_, ?_, h1a, h1b, h2a, h2b, h12⟩
  · exact minReferencePosition_comm_cmp c hanti a.start b.start
  · exact maxReferencePosition_comm_cmp c hanti a.«end» b.«end»

/-- Witness for C7: commuting a concrete union keeps the start positions
comparator-equal and the two fresh ids distinct. -/
theorem C7_union_commutative_positions_witness :
    ("u1" ≠ aW.getIntervalId) ∧
    cOid (SequenceIntervalClass.union cOid aW bW "u1").start
      (SequenceIntervalClass.union cOid bW aW "u2").start = 0 ∧
    (SequenceIntervalClass.union cOid aW bW "u1").getIntervalId
      ≠ (SequenceIntervalClass.union cOid bW aW "u2").getIntervalId := by
  have h := C7_union_commutative_positions cOid cOid_good.1 aW bW "u1" "u2"
    (by decide) (by decide) (by decide) (by decide) (by decide)
  exact ⟨by decide, h.1, h.2.2.2.2.2.2⟩

/-! ## Claim C8 -/

def cl8 : Client :=
  { lrpToPos := fun pr => if pr.oid == 1 then 2 else 9,
    currentSeq := 5,
    getContainingSegment := fun _ _ _ => none,
    slideToSegoff := fun _ _ _ => .undef,
    computeStickinessFromSide := fun _ _ _ _ => 0,
    startReferenceSlidingPreference := fun _ => .FORWARD,
    endReferenceSlidingPreference := fun _ => .FORWARD }

def i8 : SequenceIntervalClass :=
  SequenceIntervalClass.construct "abc" "hl" prA prB .SlideOnRemove
    (some [("color", .str "red")]) .After .Before

/-- C8: `serialize()` returns exactly
`serializeDelta({props: this.properties, includeEndpoints: true})`, and for
the interval with id `"abc"`, label `"hl"`, endpoints `(2 After, 9 Before)`
and user properties `{"color": "red"}`, the serialized form has `start = 2`,
`startSide = After`, `end = 9`, `endSide = Before`, and properties equal to
`{"color": "red", "intervalId": "abc", "referenceRangeLabels": ["hl"]}`. -/
theorem C8_serialize_via_serializeDelta :
    (∀ (cl : Client) (i : SequenceIntervalClass),
      SequenceIntervalClass.serialize cl i
        = SequenceIntervalClass.serializeDelta cl i (some i.properties) true) ∧
    (SequenceIntervalClass.serialize cl8 i8).start = some (.num 2) ∧
    (SequenceIntervalClass.serialize cl8 i8).startSide = some Side.After ∧
    (SequenceIntervalClass.serialize cl8 i8).«end» = some (.num 9) ∧
    (SequenceIntervalClass.serialize cl8 i8).endSide = some Side.Before ∧
    (SequenceIntervalClass.serialize cl8 i8).properties =
      some [("color", .str "red"), ("intervalId", .str "abc"),
        ("referenceRangeLabels", .strList ["hl"])] :=
  ⟨fun cl i => rfl, by decide, by decide, by decide, by decide, by decide⟩

/-! ## Claim C9 -/

/-- C9 counterexample: the class constructor adds `props` verbatim —
constructing an interval directly with a props bag containing
`"intervalId"` leaves that reserved key visible in the interval's
properties, refuting the claim that construction removes the reserved
keys. -/
theorem C9_counterexample_constructorKeepsReservedKeys :
    lookupProp (SequenceIntervalClass.construct "x" "l" prA prB
      IntervalType.SlideOnRemove (some [("intervalId", .str "boom")])
      Side.Before Side.Before).properties reservedIntervalIdKey
      = some (.str "boom") := by decide

/-- C9 (amended): the reserved keys are stripped not by the constructor but
by `createSequenceInterval`, which overwrites them with `undefined` in the
props it passes on; every interval successfully created through
`createSequenceInterval` exposes neither reserved key in its user-visible
properties, and serialization re-inserts both. -/
theorem C9_factory_strips_reserved_keys (cl : Client) (label id : String)
    (start e : Option SequencePlace) (it : IntervalType) (op : Option Op)
    (fs : Option Bool) (unsb : Bool) (props : Option PropertySet)
    (rb : Option Bool) (oid : Nat) (ival : SequenceIntervalClass)
    (hok : createSequenceInterval cl label id start e it op fs unsb props rb oid
      = .ok ival) :
    lookupProp ival.properties reservedIntervalIdKey = none ∧
    lookupProp ival.properties reservedRangeLabelsKey = none ∧
    lookupProp ((SequenceIntervalClass.serialize cl ival).properties.getD [])
      reservedIntervalIdKey = some (.str ival.getIntervalId) ∧
    lookupProp ((SequenceIntervalClass.serialize cl ival).properties.getD [])
      reservedRangeLabelsKey = some (.strList [ival.label]) := by
  obtain ⟨-, -, -, h4, -, -⟩ :=
    createSequenceInterval_ok_fields _ _ _ _ _ _ _ _ _ _ _ _ _ hok
  refine ⟨?_, ?_, ?_, ?_⟩
  · rw [h4]
    cases props with
    | none => rfl
    | some p =>
        simp only [Option.elim]
        rw [lookupProp_addProperties_of_not_mem _ _ ?hne []]
        · rfl
        case hne =>
          intro kv hm
          exact eraseKey_keys_ne p reservedIntervalIdKey kv
            (List.mem_of_mem_filter hm)
  · rw [h4]
    cases props with
    | none => rfl
    | some p =>
        simp only [Option.elim]
        rw [lookupProp_addProperties_of_not_mem _ _ ?hne2 []]
        · rfl
        case hne2 =>
          exact eraseKey_keys_ne (eraseKey p reservedIntervalIdKey)
            reservedRangeLabelsKey
  · rw [show ((SequenceIntervalClass.serialize cl ival).properties.getD []) =
      setKey (setKey ival.properties reservedIntervalIdKey (.str ival.id))
        reservedRangeLabelsKey (.strList [ival.label]) from rfl]
    rw [lookupProp_setKey_ne _ _ _ _ (by decide)]
    exact lookupProp_setKey_self _ _ _
  · rw [show ((SequenceIntervalClass.serialize cl ival).properties.getD []) =
      setKey (setKey ival.properties reservedIntervalIdKey (.str ival.id))
        reservedRangeLabelsKey (.strList [ival.label]) from rfl]
    exact lookupProp_setKey_self _ _ _

def c9wStart : LocalReferencePosition :=
  { oid := 40, refType := 144, slidingPreference := some .FORWARD,
    canSlideToEndpoint := some false,
    segment := some { endpointType := none, sid := 0 },
    offset := some 0,
    properties := some [("referenceRangeLabels", .strList ["lab"])] }

def c9wEnd : LocalReferencePosition :=
  { oid := 41, refType := 160, slidingPreference := some .FORWARD,
    canSlideToEndpoint := some true,
    segment := some { endpointType := none, sid := 1 },
    offset := some 0,
    properties := some [("referenceRangeLabels", .strList ["lab"])] }

/-- The interval the concrete creation with a reserved-key-carrying props
bag produces. -/
def c9wIval : SequenceIntervalClass :=
  { id := "i9", label := "lab", start := c9wStart, «end» := c9wEnd,
    intervalType := .SlideOnRemove,
    properties := [("color", .str "red")],
    startSide := .Before, endSide := .Before }

/-- Witness for C9: a concrete creation whose props carry `"intervalId"`
succeeds, and the produced interval exposes neither reserved key. -/
theorem C9_factory_strips_reserved_keys_witness :
    createSequenceInterval clW "lab" "i9" (some (.plain (.num 0)))
      (some (.plain (.num 1))) IntervalType.SlideOnRemove none none false
      (some [("intervalId", .str "bad"), ("color", .str "red")]) none 40
      = .ok c9wIval ∧
    (lookupProp c9wIval.properties reservedIntervalIdKey = none ∧
     lookupProp c9wIval.properties reservedRangeLabelsKey = none) := by
  have h := C9_factory_strips_reserved_keys clW "lab" "i9"
    (some (.plain (.num 0))) (some (.plain (.num 1)))
    IntervalType.SlideOnRemove none none false
    (some [("intervalId", .str "bad"), ("color", .str "red")]) none 40
    c9wIval (by decide)
  exact ⟨by decide, h.1, h.2.1⟩

/-! ## Claim C10 -/

/-- C10: `overlaps(b)` depends only on the reference comparison of the four
endpoints and never reads the sides: it equals
`compare(a.start, b.end) ≤ 0 ∧ compare(a.end, b.start) ≥ 0`, is invariant
under changing all four sides, and reports touching intervals (end meets
start under the comparator) as overlapping — in contrast to `overlapsPos`,
which resolves numeric positions and uses strict inequalities. -/
theorem C10_overlaps_endpointsOnly (c : RefCmp) (cl : Client) :
    (∀ a b : SequenceIntervalClass,
      SequenceIntervalClass.overlaps c a b =
        (decide (c a.start b.«end» ≤ 0) && decide (c a.«end» b.start ≥ 0))) ∧
    (∀ (a b : SequenceIntervalClass) (s1 s2 s3 s4 : Side),
      SequenceIntervalClass.overlaps c
        { a with startSide := s1, endSide := s2 }
        { b with startSide := s3, endSide := s4 }
        = SequenceIntervalClass.overlaps c a b) ∧
    (∀ a b : SequenceIntervalClass,
      a.endSide = Side.Before → b.startSide = Side.After →
      c a.«end» b.start = 0 → c a.start b.«end» ≤ 0 →
      SequenceIntervalClass.overlaps c a b = true) ∧
    (∀ (a : SequenceIntervalClass) (bstart bend : Int),
      SequenceIntervalClass.overlapsPos cl a bstart bend =
        (decide (cl.lrpToPos a.«end» > bstart)
          && decide (cl.lrpToPos a.start < bend))) := by
  refine ⟨fun a b => rfl, fun a b s1 s2 s3 s4 => rfl, ?_, fun a bs be => rfl⟩
  intro a b _ _ h3 h4
  simp [SequenceIntervalClass.overlaps, h3, h4]

def tA : SequenceIntervalClass :=
  SequenceIntervalClass.construct "t1" "l" prA prB .SlideOnRemove none
    .Before .Before

def tB : SequenceIntervalClass :=
  SequenceIntervalClass.construct "t2" "l" prB prD .SlideOnRemove none
    .After .Before

/-- Witness for C10: two touching intervals whose sides make the set
intersection empty (`tA` ends at `tB`'s start position, `Before` against
`After`) are still reported as overlapping by `overlaps`, while
`overlapsPos` at the same numeric positions reports no overlap. -/
theorem C10_overlaps_endpointsOnly_witness :
    SequenceIntervalClass.overlaps cOid tA tB = true ∧
    SequenceIntervalClass.overlapsPos clW tA 2 5 = false :=
  ⟨(C10_overlaps_endpointsOnly cOid clW).2.2.1 tA tB rfl rfl (by decide)
    (by decide), by decide⟩

end SeqInterval
